import Mathlib

/-!
Verification of the Miden VM trace-and-constraint core against its
natural-language specification.

The development shallowly embeds the Rust sources:
- `processor/src/advice/mod.rs` (advice provider: tape, map, Merkle sets),
- `processor/src/decorators/adv_map_injectors.rs` (memory-range helper),
- `processor/src/stack/aux_trace.rs` (overflow-table auxiliary column factors),
- `air/src/constraints/chiplets/hasher/tests.rs` (hasher constraint test frame).

Rust `&mut self` methods returning `Result` become functions
`State -> Except Error A × State`, so a mutation performed before an error is
raised stays visible in the returned state.  The Rust `Vec` advice tape is
read and written at its end; we represent it as a `List` whose head is the
read end, so `Vec::push` is `cons` and `Vec::pop` takes the head.

Pieces of the repository that the claims depend on but whose sources are not
available (the `AdviceSet` Merkle trees of `vm_core`, the `OverflowTableRow`
encoding, the `MainTrace` accessors, the hasher round function and constraint
evaluator, and the call-return stack-depth check) are modelled from the
specification; each such definition carries a doc comment starting with
`Modelled from the spec:`.
-/

-- ==============================================================================================
-- FIELD ELEMENTS AND WORDS
-- ==============================================================================================

/-- Prime modulus of the Miden base field (the Goldilocks prime 2^64 - 2^32 + 1). -/
def MODULUS : Nat := 2 ^ 64 - 2 ^ 32 + 1

/-- A field element: all trace cells, tape entries and digests are elements of the
prime field of size `MODULUS`. -/
abbrev Felt : Type := ZMod MODULUS

instance : NeZero MODULUS := ⟨by decide⟩

/-- A word: an ordered tuple of 4 field elements (the hash/digest unit). -/
abbrev Word : Type := Felt × Felt × Felt × Felt

/-- The closed error enumeration of the core (the constructors exercised by the
modelled operations, from `ExecutionError`). -/
inductive ExecutionError where
  | AdviceTapeReadFailed (step : Nat)
  | AdviceKeyNotFound (key : Word)
  | DuplicateAdviceKey (key : Word)
  | AdviceSetNotFound (root : Word)
  | AdviceSetLookupFailed
  | MemoryAddressOutOfBounds (addr : Nat)
  | InvalidMemoryRange (start_addr end_addr : Nat)
  | InvalidStackDepthOnReturn (depth : Nat)
  deriving DecidableEq

-- ==============================================================================================
-- ASSOCIATION-LIST MODEL OF BTreeMap
-- ==============================================================================================

/-- `BTreeMap::get`: first binding of the key, if any. -/
def mapGet {K V : Type} [DecidableEq K] : List (K × V) → K → Option V
  | [], _ => none
  | (k, v) :: rest, key => if k = key then some v else mapGet rest key

/-- `BTreeMap::insert`: replaces an existing binding in place and returns the
previous value (mirroring Rust, which overwrites even when a value was present). -/
def mapInsert {K V : Type} [DecidableEq K] : List (K × V) → K → V → Option V × List (K × V)
  | [], key, v => (none, [(key, v)])
  | (k, w) :: rest, key, v =>
    if k = key then (some w, (key, v) :: rest)
    else
      let r := mapInsert rest key v
      (r.1, (k, w) :: r.2)

/-- `BTreeMap::remove`: removes the first binding of the key and returns its value. -/
def mapRemove {K V : Type} [DecidableEq K] : List (K × V) → K → Option V × List (K × V)
  | [], _ => (none, [])
  | (k, w) :: rest, key =>
    if k = key then (some w, rest)
    else
      let r := mapRemove rest key
      (r.1, (k, w) :: r.2)

-- ==============================================================================================
-- ADVICE SETS (MERKLE TREES)
-- ==============================================================================================

/-- Modelled from the spec: the two-to-one digest combiner of the Merkle-tree view.
The spec treats the hash as an abstract collision-resistant compression whose
exact definition lives outside this repository; any fixed combiner supports the
provider-level bookkeeping the claims are about, so we pick a simple concrete one. -/
def hashMerge (a b : Word) : Word :=
  (a.1 + 7 * b.1 + 1, a.2.1 + 7 * b.2.1 + 2, a.2.2.1 + 7 * b.2.2.1 + 3, a.2.2.2 + 7 * b.2.2.2 + 4)

/-- Modelled from the spec: an advice set is a Merkle-tree view — a complete binary
tree of the given depth whose leaves are words, identified by its root. -/
structure MerkleTree where
  depth : Nat
  leaves : List Word
  deriving DecidableEq

/-- Node value `levels` levels above the leaves, at position `i` within that level. -/
def levelNode (leaves : List Word) : Nat → Nat → Word
  | 0, i => leaves.getD i (0, 0, 0, 0)
  | l + 1, i => hashMerge (levelNode leaves l (2 * i)) (levelNode leaves l (2 * i + 1))

/-- Root of the tree: the single node `depth` levels above the leaves. -/
def MerkleTree.root (t : MerkleTree) : Word :=
  levelNode t.leaves t.depth 0

/-- Modelled from the spec: point lookup of the node at `(depth, index)`;
`0 < depth ≤ tree depth` is required and out-of-range nodes are errors. -/
def MerkleTree.get_node (t : MerkleTree) (depth index : Nat) : Except ExecutionError Word :=
  if depth = 0 ∨ t.depth < depth then .error .AdviceSetLookupFailed
  else if 2 ^ depth ≤ index then .error .AdviceSetLookupFailed
  else .ok (levelNode t.leaves (t.depth - depth) index)

/-- Sibling nodes along the path from the node at the given depth and index up to
the root (leaf-to-root, sibling-ordered). -/
def pathNodes (leaves : List Word) (tdepth : Nat) : Nat → Nat → List Word
  | 0, _ => []
  | d + 1, i => levelNode leaves (tdepth - (d + 1)) (i ^^^ 1) :: pathNodes leaves tdepth d (i / 2)

/-- Modelled from the spec: authentication path for the node at `(depth, index)`;
same validity conditions as `MerkleTree.get_node`. -/
def MerkleTree.get_path (t : MerkleTree) (depth index : Nat) :
    Except ExecutionError (List Word) :=
  if depth = 0 ∨ t.depth < depth then .error .AdviceSetLookupFailed
  else if 2 ^ depth ≤ index then .error .AdviceSetLookupFailed
  else .ok (pathNodes t.leaves t.depth depth index)

/-- Modelled from the spec: replace the leaf at `index` with the given word
(changing the root); an out-of-range index is an error. -/
def MerkleTree.update_leaf (t : MerkleTree) (index : Nat) (v : Word) :
    Except ExecutionError MerkleTree :=
  if 2 ^ t.depth ≤ index then .error .AdviceSetLookupFailed
  else .ok { t with leaves := t.leaves.set index v }

-- ==============================================================================================
-- ADVICE PROVIDER (processor/src/advice/mod.rs)
-- ==============================================================================================

/-- The advice provider: clock step, advice tape, key-value advice map, and the
Merkle advice sets keyed by root.  The Rust map is keyed by `key.into_bytes()`,
an injective serialization of the word; we key by the word itself. -/
structure AdviceProvider where
  step : Nat
  tape : List Felt
  values : List (Word × List Felt)
  sets : List (Word × MerkleTree)
  deriving DecidableEq

/-- `read_tape`: `self.tape.pop().ok_or(AdviceTapeReadFailed(self.step))` —
removes the next element from the tape and returns it. -/
def read_tape (ap : AdviceProvider) : Except ExecutionError Felt × AdviceProvider :=
  match ap.tape with
  | [] => (.error (.AdviceTapeReadFailed ap.step), ap)
  | v :: rest => (.ok v, { ap with tape := rest })

/-- `read_tapew`: if fewer than 4 elements remain, fail; otherwise return
`[tape[idx+3], tape[idx+2], tape[idx+1], tape[idx]]` for `idx = len - 4` and
truncate to `idx`.  With the list head at the read end this takes the first
four entries in order. -/
def read_tapew (ap : AdviceProvider) : Except ExecutionError Word × AdviceProvider :=
  match ap.tape with
  | a :: b :: c :: d :: rest => (.ok (a, b, c, d), { ap with tape := rest })
  | _ => (.error (.AdviceTapeReadFailed ap.step), ap)

/-- `read_tape_double`: two sequential `read_tapew` calls, propagating the first
error; the state reached so far is kept. -/
def read_tape_double (ap : AdviceProvider) :
    Except ExecutionError (Word × Word) × AdviceProvider :=
  match read_tapew ap with
  | (.error e, ap1) => (.error e, ap1)
  | (.ok word0, ap1) =>
    match read_tapew ap1 with
    | (.error e, ap2) => (.error e, ap2)
    | (.ok word1, ap2) => (.ok (word0, word1), ap2)

/-- `write_tape`: push one element at the head of the tape. -/
def write_tape (ap : AdviceProvider) (v : Felt) : AdviceProvider :=
  { ap with tape := v :: ap.tape }

/-- `write_tape_from_map`: look the key up in the advice map and push the values
one by one in reverse order (`values.iter().rev()`), so the first value ends up
at the tape head; fail with `AdviceKeyNotFound` if the key is absent. -/
def write_tape_from_map (ap : AdviceProvider) (key : Word) :
    Except ExecutionError Unit × AdviceProvider :=
  match mapGet ap.values key with
  | none => (.error (.AdviceKeyNotFound key), ap)
  | some vs => (.ok (), { ap with tape := vs.reverse.foldl (fun t e => e :: t) ap.tape })

/-- `insert_into_map`: `match self.values.insert(key, values)` — the insertion
runs unconditionally (overwriting any previous binding); only afterwards is a
`DuplicateAdviceKey` error reported when a previous value existed. -/
def insert_into_map (ap : AdviceProvider) (key : Word) (vs : List Felt) :
    Except ExecutionError Unit × AdviceProvider :=
  let r := mapInsert ap.values key vs
  match r.1 with
  | none => (.ok (), { ap with values := r.2 })
  | some _ => (.error (.DuplicateAdviceKey key), { ap with values := r.2 })

/-- `get_tree_node`: look up the advice set by root (`AdviceSetNotFound` if absent)
and fetch the node at `(depth as u32, index)`; the provider itself is only read. -/
def get_tree_node (ap : AdviceProvider) (root : Word) (depth index : Felt) :
    Except ExecutionError Word × AdviceProvider :=
  match mapGet ap.sets root with
  | none => (.error (.AdviceSetNotFound root), ap)
  | some t =>
    match t.get_node (depth.val % 2 ^ 32) index.val with
    | .error e => (.error e, ap)
    | .ok node => (.ok node, ap)

/-- `get_merkle_path`: look up the advice set by root (`AdviceSetNotFound` if
absent) and fetch the authentication path at `(depth as u32, index)`; the
provider itself is only read. -/
def get_merkle_path (ap : AdviceProvider) (root : Word) (depth index : Felt) :
    Except ExecutionError (List Word) × AdviceProvider :=
  match mapGet ap.sets root with
  | none => (.error (.AdviceSetNotFound root), ap)
  | some t =>
    match t.get_path (depth.val % 2 ^ 32) index.val with
    | .error e => (.error e, ap)
    | .ok path => (.ok path, ap)

/-- `update_merkle_leaf`: with `update_in_copy` the set is cloned, otherwise it is
removed from the map up front; then the path at the depth stored in the set itself is fetched,
the leaf updated, and the updated set re-inserted under its new root. -/
def update_merkle_leaf (ap : AdviceProvider) (root : Word) (index : Felt)
    (leaf_value : Word) (update_in_copy : Bool) :
    Except ExecutionError (List Word) × AdviceProvider :=
  let looked : Option MerkleTree × AdviceProvider :=
    if update_in_copy then (mapGet ap.sets root, ap)
    else
      let r := mapRemove ap.sets root
      (r.1, { ap with sets := r.2 })
  match looked.1 with
  | none => (.error (.AdviceSetNotFound root), looked.2)
  | some t =>
    match t.get_path t.depth index.val with
    | .error e => (.error e, looked.2)
    | .ok path =>
      match t.update_leaf index.val leaf_value with
      | .error e => (.error e, looked.2)
      | .ok t2 =>
        let r := mapInsert looked.2.sets t2.root t2
        (.ok path, { looked.2 with sets := r.2 })

/-- `advance_clock`: increments the cycle counter used in tape-read errors. -/
def advance_clock (ap : AdviceProvider) : AdviceProvider :=
  { ap with step := ap.step + 1 }

/-- Iterates the `read_tape` of the source the given number of times, collecting the
elements read (the driver for the round-trip law of spec section 8). -/
def read_many : Nat → AdviceProvider → Except ExecutionError (List Felt) × AdviceProvider
  | 0, ap => (.ok [], ap)
  | n + 1, ap =>
    match read_tape ap with
    | (.error e, ap2) => (.error e, ap2)
    | (.ok v, ap2) =>
      match read_many n ap2 with
      | (.error e, ap3) => (.error e, ap3)
      | (.ok vs, ap3) => (.ok (v :: vs), ap3)

/-- Equality of `Except` results is decidable when both components are. -/
instance {e a : Type} [DecidableEq e] [DecidableEq a] : DecidableEq (Except e a) := fun x y =>
  match x, y with
  | .error u, .error v =>
    if h : u = v then .isTrue (by rw [h]) else .isFalse (fun hh => by cases hh; exact h rfl)
  | .error _, .ok _ => .isFalse (fun hh => by cases hh)
  | .ok _, .error _ => .isFalse (fun hh => by cases hh)
  | .ok u, .ok v =>
    if h : u = v then .isTrue (by rw [h]) else .isFalse (fun hh => by cases hh; exact h rfl)

-- ==============================================================================================
-- MEMORY RANGE HELPER (processor/src/decorators/adv_map_injectors.rs)
-- ==============================================================================================

/-- `Process::get_mem_addr_range`: reads `(start_addr, end_addr)` from the operand
stack (modelled as a read-only index-to-element function, matching the `&self`
receiver), checks each address against `u32::MAX`, then checks the ordering, and
returns the pair of addresses.  `as_int` is the canonical value of the element. -/
def get_mem_addr_range (stack : Nat → Felt) (start_idx end_idx : Nat) :
    Except ExecutionError (Nat × Nat) :=
  let start_addr := (stack start_idx).val
  let end_addr := (stack end_idx).val
  if 2 ^ 32 - 1 < start_addr then .error (.MemoryAddressOutOfBounds start_addr)
  else if 2 ^ 32 - 1 < end_addr then .error (.MemoryAddressOutOfBounds end_addr)
  else if end_addr < start_addr then .error (.InvalidMemoryRange start_addr end_addr)
  else .ok (start_addr, end_addr)

-- ==============================================================================================
-- STACK AUXILIARY COLUMN (processor/src/stack/aux_trace.rs)
-- ==============================================================================================

/-- Modelled from the spec: the accessors of the finished main trace that the
stack auxiliary-column builder reads (their implementations live outside this
repository); a trace is a family of per-row values and shift indicators. -/
structure MainTrace where
  clk : Nat → Felt
  stack_element : Nat → Nat → Felt
  parent_overflow_address : Nat → Felt
  is_left_shift : Nat → Bool
  is_non_empty_overflow : Nat → Bool
  is_right_shift : Nat → Bool

/-- An overflow-table row: clock cycle of insertion, the stored value, and the
address (insertion clock) of the previous overflow row. -/
structure OverflowTableRow where
  clk : Felt
  val : Felt
  prev : Felt

/-- Modelled from the spec: the randomized encoding of an overflow-table row — a
fixed linear combination of the row fields with the random challenges `alphas`
(same row data always yields the same value). -/
def OverflowTableRow.to_value (row : OverflowTableRow) (alphas : Nat → Felt) : Felt :=
  alphas 0 + alphas 1 * row.clk + alphas 2 * row.val + alphas 3 * row.prev

/-- `AuxColumnBuilder::get_requests_at`: on a left shift with a non-empty overflow
table, the encoding of the row being removed (its address is the current parent
overflow address, its value reappears as stack element 15 of the next row, and
its parent is the parent overflow address of the next row); otherwise one. -/
def get_requests_at (main_trace : MainTrace) (alphas : Nat → Felt) (i : Nat) : Felt :=
  if main_trace.is_left_shift i && main_trace.is_non_empty_overflow i then
    let b1 := main_trace.parent_overflow_address i
    let s15_prime := main_trace.stack_element 15 (i + 1)
    let b1_prime := main_trace.parent_overflow_address (i + 1)
    OverflowTableRow.to_value ⟨b1, s15_prime, b1_prime⟩ alphas
  else 1

/-- `AuxColumnBuilder::get_responses_at`: on a right shift, the encoding of the
row being added (current clock, stack element 15, current parent overflow
address); otherwise one. -/
def get_responses_at (main_trace : MainTrace) (alphas : Nat → Felt) (i : Nat) : Felt :=
  if main_trace.is_right_shift i then
    let k0 := main_trace.clk i
    let s15 := main_trace.stack_element 15 i
    let b1 := main_trace.parent_overflow_address i
    OverflowTableRow.to_value ⟨k0, s15, b1⟩ alphas
  else 1

-- ==============================================================================================
-- HASHER CHIPLET CONSTRAINTS (air/src/constraints/chiplets/hasher)
-- ==============================================================================================

/-- Width of the working state of the hasher chiplet. -/
def STATE_WIDTH : Nat := 12

/-- Modelled from the spec: the components of the hasher round that the spec
leaves abstract — the nonlinear S-box layer, the fixed linear layer, and the
two per-row additive round-constant schedules ARK1 and ARK2 (spec section 4.4).
Theorems quantify over these parameters. -/
structure HasherParams where
  sbox : Felt → Felt
  mds : Fin STATE_WIDTH → Fin STATE_WIDTH → Felt
  ark1 : Nat → Fin STATE_WIDTH → Felt
  ark2 : Nat → Fin STATE_WIDTH → Felt

/-- Sum of an indexed family of field elements (the dot product accumulator). -/
def vecSum : (n : Nat) → (Fin n → Felt) → Felt
  | 0, _ => 0
  | n + 1, f => f 0 + vecSum n (fun i => f i.succ)

/-- The fixed linear layer: multiply the state by the matrix `m`. -/
def applyLinear (m : Fin STATE_WIDTH → Fin STATE_WIDTH → Felt)
    (s : Fin STATE_WIDTH → Felt) : Fin STATE_WIDTH → Felt :=
  fun i => vecSum STATE_WIDTH (fun j => m i j * s j)

/-- Modelled from the spec: one hasher round with the given round-constant
vectors — add ARK1, S-box layer, linear layer, add ARK2, S-box layer, linear
layer, in that order (spec section 4.4). -/
def round_with (p : HasherParams) (a1 a2 : Fin STATE_WIDTH → Felt)
    (s : Fin STATE_WIDTH → Felt) : Fin STATE_WIDTH → Felt :=
  let t1 := fun i => s i + a1 i
  let t2 := fun i => p.sbox (t1 i)
  let t3 := applyLinear p.mds t2
  let t4 := fun i => t3 i + a2 i
  let t5 := fun i => p.sbox (t4 i)
  applyLinear p.mds t5

/-- `apply_round`: the round function at the given cycle row, using the per-row
round constants. -/
def apply_round (p : HasherParams) (round : Nat) (s : Fin STATE_WIDTH → Felt) :
    Fin STATE_WIDTH → Felt :=
  round_with p (p.ark1 round) (p.ark2 round) s

/-- Modelled from the spec: the selector tuple starting a linear hash; the exact
values are immaterial to the claims, which fix only that rows continuing a
linear hash carry `[0, LINEAR_HASH[1], LINEAR_HASH[2]]`. -/
def LINEAR_HASH : Fin 3 → Felt :=
  fun i => if i = 0 then 1 else 0

/-- The hasher-chiplet columns of one trace row: three selector columns, the
working state, and the node-index bookkeeping column. -/
structure HasherRow where
  selectors : Fin 3 → Felt
  state : Fin STATE_WIDTH → Felt
  node_index : Felt

/-- A pair of adjacent trace rows handed to the constraint evaluator. -/
structure EvaluationFrame where
  current : HasherRow
  next : HasherRow

/-- The periodic values supplied with a frame: three cycle-phase indicator flags
followed by the ARK1 and ARK2 round-constant vectors for the current row. -/
structure PeriodicValues where
  k0 : Felt
  k1 : Felt
  k2 : Felt
  ark1 : Fin STATE_WIDTH → Felt
  ark2 : Fin STATE_WIDTH → Felt

/-- Translation of the test helper `get_test_periodic_values`: phase flags
`[0,0,1]` at cycle row 0, `[0,1,0]` at row 7, `[1,0,0]` at row 8 and `[0,0,0]`
elsewhere, followed by the round constants of the row (zeros at row 7). -/
def get_test_periodic_values (p : HasherParams) (cycle_row : Nat) : PeriodicValues :=
  let flags : Felt × Felt × Felt :=
    if cycle_row = 0 then (0, 0, 1)
    else if cycle_row = 7 then (0, 1, 0)
    else if cycle_row = 8 then (1, 0, 0)
    else (0, 0, 0)
  if cycle_row = 7 then
    ⟨flags.1, flags.2.1, flags.2.2, fun _ => 0, fun _ => 0⟩
  else
    ⟨flags.1, flags.2.1, flags.2.2, p.ark1 cycle_row, p.ark2 cycle_row⟩

/-- Number of constraints of the modelled evaluator: one per state element, one
for the node-index column, and one per selector column. -/
def NUM_CONSTRAINTS : Nat := 16

/-- Modelled from the spec: the hasher chiplet constraint evaluator
(spec sections 4.4 and 6).  On rows where the hash-round flag is active
(all cycle rows except offsets 7 and 8, read off the periodic phase flags), it
compares the next-row state with the round function of the current-row state,
keeps the node-index column constant, and keeps the selector columns constant;
every entry is scaled by the composition coefficient. -/
def enforce_constraints (p : HasherParams) (frame : EvaluationFrame)
    (pv : PeriodicValues) (coef : Felt) : Fin NUM_CONSTRAINTS → Felt :=
  let hr_flag : Felt := (1 - pv.k0) * (1 - pv.k1)
  let expected := round_with p pv.ark1 pv.ark2 frame.current.state
  fun c =>
    if h : (c : Nat) < 12 then
      coef * hr_flag * (frame.next.state ⟨(c : Nat), h⟩ - expected ⟨(c : Nat), h⟩)
    else if (c : Nat) = 12 then
      coef * hr_flag * (frame.next.node_index - frame.current.node_index)
    else
      have hc : (c : Nat) < 16 := c.isLt
      coef * hr_flag *
        (frame.next.selectors ⟨(c : Nat) - 13, by omega⟩ -
         frame.current.selectors ⟨(c : Nat) - 13, by omega⟩)

/-- Translation of the test helper `get_test_hashing_frame`: current row holds
the given selectors, the state `s` (the random array of the test) and node
index zero; the next row holds the given selectors, the state after one round
at the given cycle row, and node index zero. -/
def get_test_hashing_frame (p : HasherParams)
    (current_selectors next_selectors : Fin 3 → Felt)
    (cycle_row_num : Nat) (s : Fin STATE_WIDTH → Felt) : EvaluationFrame :=
  { current := { selectors := current_selectors, state := s, node_index := 0 }
    next := { selectors := next_selectors
              state := apply_round p cycle_row_num s
              node_index := 0 } }

/-- The current-row selectors of the hash-round scenario:
`[ZERO, LINEAR_HASH[1], LINEAR_HASH[2]]` (continuing a linear hash). -/
def test_selectors : Fin 3 → Felt :=
  fun i => if i = 0 then 0 else LINEAR_HASH i

-- ==============================================================================================
-- CALL/RETURN STACK-DEPTH DISCIPLINE
-- ==============================================================================================

/-- Modelled from the spec: the fragment of the instruction set needed for the
call-return discipline — pushes (which can grow the overflow table), drops
(which shrink it), and calls running a body in a fresh frame. -/
inductive Instr where
  | push (v : Felt)
  | drop
  | call (body : List Instr)

/-- Modelled from the spec (section 4.2): execution tracked at the level of the
logical stack depth.  The visible window holds 16 slots, so `depth - 16` is the
number of overflow-table rows of the current frame; a drop at depth 16 pads and
stays at 16.  A call runs its body from the fresh-frame depth 16; on return the
callee depth must be exactly 16 — a non-empty overflow table created within the
invocation (depth above 16) is the fatal `InvalidStackDepthOnReturn`, carrying
that depth. -/
def execProgram : List Instr → Nat → Except ExecutionError Nat
  | [], d => .ok d
  | .push _ :: rest, d => execProgram rest (d + 1)
  | .drop :: rest, d => execProgram rest (max (d - 1) 16)
  | .call body :: rest, d =>
    match execProgram body 16 with
    | .error e => .error e
    | .ok dEnd =>
      if dEnd = 16 then execProgram rest d
      else .error (.InvalidStackDepthOnReturn dEnd)

-- ==============================================================================================
-- HELPER LEMMAS
-- ==============================================================================================

theorem foldl_cons_eq {A : Type} (l t : List A) :
    l.foldl (fun acc e => e :: acc) t = l.reverse ++ t := by
  induction l generalizing t with
  | nil => simp
  | cons x xs ih => simp [List.foldl_cons, ih]

theorem mapInsert_fst {K V : Type} [DecidableEq K] (m : List (K × V)) (k : K) (v : V) :
    (mapInsert m k v).1 = mapGet m k := by
  induction m with
  | nil => simp [mapInsert, mapGet]
  | cons kv rest ih =>
    obtain ⟨k1, v1⟩ := kv
    by_cases h : k1 = k
    · simp [mapInsert, mapGet, h]
    · simp [mapInsert, mapGet, h, ih]

theorem mapGet_mapInsert_self {K V : Type} [DecidableEq K] (m : List (K × V)) (k : K) (v : V) :
    mapGet (mapInsert m k v).2 k = some v := by
  induction m with
  | nil => simp [mapInsert, mapGet]
  | cons kv rest ih =>
    obtain ⟨k1, v1⟩ := kv
    by_cases h : k1 = k
    · simp [mapInsert, mapGet, h]
    · simp [mapInsert, mapGet, h, ih]

theorem mapGet_mapInsert_ne {K V : Type} [DecidableEq K] (m : List (K × V)) (k k2 : K) (v : V)
    (h : k2 ≠ k) : mapGet (mapInsert m k v).2 k2 = mapGet m k2 := by
  have hne : ¬k = k2 := fun hh => h hh.symm
  induction m with
  | nil => simp [mapInsert, mapGet, hne]
  | cons kv rest ih =>
    obtain ⟨k1, v1⟩ := kv
    by_cases h1 : k1 = k
    · subst h1
      simp [mapInsert, mapGet, hne]
    · simp [mapInsert, mapGet, h1, ih]

theorem mapRemove_fst {K V : Type} [DecidableEq K] (m : List (K × V)) (k : K) :
    (mapRemove m k).1 = mapGet m k := by
  induction m with
  | nil => simp [mapRemove, mapGet]
  | cons kv rest ih =>
    obtain ⟨k1, v1⟩ := kv
    by_cases h : k1 = k
    · simp [mapRemove, mapGet, h]
    · simp [mapRemove, mapGet, h, ih]

theorem mapGet_eq_none_of_not_mem {K V : Type} [DecidableEq K] (m : List (K × V)) (k : K)
    (h : k ∉ m.map Prod.fst) : mapGet m k = none := by
  induction m with
  | nil => simp [mapGet]
  | cons kv rest ih =>
    obtain ⟨k1, v1⟩ := kv
    simp only [List.map_cons, List.mem_cons] at h
    push_neg at h
    have hne : ¬k1 = k := fun hh => h.1 hh.symm
    simp [mapGet, hne, ih h.2]

theorem mapGet_mapRemove_self {K V : Type} [DecidableEq K] (m : List (K × V)) (k : K)
    (hnd : (m.map Prod.fst).Nodup) : mapGet (mapRemove m k).2 k = none := by
  induction m with
  | nil => simp [mapRemove, mapGet]
  | cons kv rest ih =>
    obtain ⟨k1, v1⟩ := kv
    simp only [List.map_cons, List.nodup_cons] at hnd
    by_cases h : k1 = k
    · subst h
      simp only [mapRemove, if_pos rfl]
      exact mapGet_eq_none_of_not_mem rest k1 hnd.1
    · simp [mapRemove, mapGet, h, ih hnd.2]

theorem read_tapew_short (ap : AdviceProvider) (h : ap.tape.length < 4) :
    read_tapew ap = (.error (.AdviceTapeReadFailed ap.step), ap) := by
  obtain ⟨st, tp, vals, sets⟩ := ap
  simp only at h
  match tp, h with
  | [], _ => rfl
  | [a], _ => rfl
  | [a, b], _ => rfl
  | [a, b, c], _ => rfl
  | a :: b :: c :: d :: rest, h => simp at h; omega

theorem read_many_of_tape_append (vs : List Felt) (ap : AdviceProvider) (t : List Felt)
    (h : ap.tape = vs ++ t) :
    read_many vs.length ap = (.ok vs, { ap with tape := t }) := by
  induction vs generalizing ap with
  | nil =>
    obtain ⟨st, tp, vals, sets⟩ := ap
    simp only at h
    subst h
    rfl
  | cons v rest ih =>
    obtain ⟨st, tp, vals, sets⟩ := ap
    simp only at h
    subst h
    have hr := ih ⟨st, rest ++ t, vals, sets⟩ rfl
    simp [read_many, read_tape, hr]

-- ==============================================================================================
-- CLAIM C8: read_tape on an empty tape
-- ==============================================================================================

/-- C8: for every provider state whose advice tape is empty, `read_tape` fails
with the `AdviceTapeReadFailed` (tape-exhaustion) error at the current step and
leaves the whole provider state — tape, map, sets, and clock — unchanged. -/
theorem read_tape_empty_fails_pure (ap : AdviceProvider) (h : ap.tape = []) :
    read_tape ap = (.error (.AdviceTapeReadFailed ap.step), ap) := by
  obtain ⟨st, tp, vals, sets⟩ := ap
  simp only at h
  subst h
  rfl

/-- Witness for C8 at a concrete provider state. -/
theorem read_tape_empty_fails_pure_witness :
    read_tape ⟨3, [], [], []⟩ = (.error (.AdviceTapeReadFailed 3), ⟨3, [], [], []⟩) :=
  read_tape_empty_fails_pure ⟨3, [], [], []⟩ rfl

-- ==============================================================================================
-- CLAIM C9: read_tape_double is not atomic, read_tapew is
-- ==============================================================================================

/-- C9: with at least 4 but fewer than 8 tape elements, `read_tape_double` fails
with `AdviceTapeReadFailed`, yet the first word (4 elements) has already been
removed from the tape — the failing call is not atomic; a single `read_tapew`
that fails with fewer than 4 elements leaves the provider unchanged. -/
theorem read_tape_double_not_atomic :
    (∀ ap : AdviceProvider, 4 ≤ ap.tape.length → ap.tape.length < 8 →
      (read_tape_double ap).1 = .error (.AdviceTapeReadFailed ap.step) ∧
      (read_tape_double ap).2.tape = ap.tape.drop 4 ∧
      (read_tape_double ap).2.tape ≠ ap.tape) ∧
    (∀ ap : AdviceProvider, ap.tape.length < 4 →
      read_tapew ap = (.error (.AdviceTapeReadFailed ap.step), ap)) := by
  refine ⟨?_, read_tapew_short⟩
  intro ap h4 h8
  obtain ⟨st, tp, vals, sets⟩ := ap
  simp only at h4 h8 ⊢
  match tp, h4, h8 with
  | a :: b :: c :: d :: rest, _, h8 =>
    have hlen : rest.length < 4 := by simp at h8; omega
    have hfirst : read_tapew ⟨st, a :: b :: c :: d :: rest, vals, sets⟩
        = (.ok (a, b, c, d), ⟨st, rest, vals, sets⟩) := rfl
    have hw := read_tapew_short ⟨st, rest, vals, sets⟩ hlen
    have hd : read_tape_double ⟨st, a :: b :: c :: d :: rest, vals, sets⟩
        = (.error (.AdviceTapeReadFailed st), ⟨st, rest, vals, sets⟩) := by
      simp only [read_tape_double, hfirst, hw]
    refine ⟨by simp [hd], by simp [hd], ?_⟩
    rw [hd]
    intro hEq
    have := congrArg List.length hEq
    simp at this
    omega

/-- Witness for C9: a 5-element tape makes `read_tape_double` fail after
consuming a word, and a 3-element tape leaves `read_tapew` without effect. -/
theorem read_tape_double_not_atomic_witness :
    (4 ≤ ([1, 2, 3, 4, 5] : List Felt).length) ∧
    (read_tape_double ⟨0, [1, 2, 3, 4, 5], [], []⟩).1
      = .error (.AdviceTapeReadFailed 0) ∧
    (read_tape_double ⟨0, [1, 2, 3, 4, 5], [], []⟩).2.tape = [5] ∧
    read_tapew ⟨7, [1, 2, 3], [], []⟩
      = (.error (.AdviceTapeReadFailed 7), ⟨7, [1, 2, 3], [], []⟩) := by
  refine ⟨by decide, ?_, ?_, ?_⟩
  · exact (read_tape_double_not_atomic.1 ⟨0, [1, 2, 3, 4, 5], [], []⟩
      (by decide) (by decide)).1
  · have h := (read_tape_double_not_atomic.1 ⟨0, [1, 2, 3, 4, 5], [], []⟩
      (by decide) (by decide)).2.1
    simpa using h
  · exact read_tape_double_not_atomic.2 ⟨7, [1, 2, 3], [], []⟩ (by decide)

-- ==============================================================================================
-- CLAIM C10: get_tree_node and get_merkle_path never modify the provider
-- ==============================================================================================

/-- C10: for every provider state and arguments, `get_tree_node` and
`get_merkle_path` return the provider unchanged — tape, advice map, stored
advice sets and clock included — whether they succeed or fail. -/
theorem tree_queries_leave_provider_unchanged
    (ap : AdviceProvider) (root : Word) (depth index : Felt) :
    (get_tree_node ap root depth index).2 = ap ∧
    (get_merkle_path ap root depth index).2 = ap := by
  constructor
  · rcases h : mapGet ap.sets root with _ | t
    · simp [get_tree_node, h]
    · simp only [get_tree_node, h]
      split <;> rfl
  · rcases h : mapGet ap.sets root with _ | t
    · simp [get_merkle_path, h]
    · simp only [get_merkle_path, h]
      split <;> rfl

-- ==============================================================================================
-- CLAIM C1: re-insertion of an existing advice-map key
-- ==============================================================================================

/-- Counterexample for C1 as stated: re-inserting the existing key rejects with
`DuplicateAdviceKey`, but the advice map is NOT left unchanged — the new values
replace the previously stored ones (`BTreeMap::insert` runs before the error is
built), so the old binding `[1]` is gone and `[2]` is bound instead. -/
theorem insert_into_map_duplicate_cex :
    (insert_into_map ⟨0, [], [((0, 0, 0, 0), [1])], []⟩ (0, 0, 0, 0) [2]).1
      = .error (.DuplicateAdviceKey (0, 0, 0, 0)) ∧
    mapGet (insert_into_map ⟨0, [], [((0, 0, 0, 0), [1])], []⟩ (0, 0, 0, 0) [2]).2.values
      (0, 0, 0, 0) = some [2] ∧
    mapGet (insert_into_map ⟨0, [], [((0, 0, 0, 0), [1])], []⟩ (0, 0, 0, 0) [2]).2.values
      (0, 0, 0, 0) ≠ some [1] := by
  refine ⟨by decide, by decide, by decide⟩

/-- C1 amended: for every key already present and every list of values,
`insert_into_map` fails with `DuplicateAdviceKey` (the re-insertion is not
silently accepted), but the map is not left unchanged: the new values overwrite
the previous binding; tape, sets and clock stay untouched.  (The error is
terminal for the run, so the overwrite is unobservable in an execution.) -/
theorem insert_into_map_duplicate_overwrites (ap : AdviceProvider) (key : Word)
    (vs vs0 : List Felt) (h : mapGet ap.values key = some vs0) :
    (insert_into_map ap key vs).1 = .error (.DuplicateAdviceKey key) ∧
    mapGet (insert_into_map ap key vs).2.values key = some vs ∧
    (insert_into_map ap key vs).2.tape = ap.tape ∧
    (insert_into_map ap key vs).2.sets = ap.sets ∧
    (insert_into_map ap key vs).2.step = ap.step := by
  have hfst : (mapInsert ap.values key vs).1 = some vs0 := by
    rw [mapInsert_fst]; exact h
  refine ⟨?_, ?_, ?_, ?_, ?_⟩ <;>
    simp [insert_into_map, hfst, mapGet_mapInsert_self]

/-- Witness for C1 at a concrete provider state with key already bound to `[1]`. -/
theorem insert_into_map_duplicate_overwrites_witness :
    mapGet (AdviceProvider.mk 0 [] [((0, 0, 0, 0), [1])] []).values (0, 0, 0, 0) = some [1] ∧
    (insert_into_map ⟨0, [], [((0, 0, 0, 0), [1])], []⟩ (0, 0, 0, 0) [2]).1
      = .error (.DuplicateAdviceKey (0, 0, 0, 0)) :=
  ⟨by decide,
    (insert_into_map_duplicate_overwrites ⟨0, [], [((0, 0, 0, 0), [1])], []⟩
      (0, 0, 0, 0) [2] [1] (by decide)).1⟩

-- ==============================================================================================
-- CLAIM C3: insert / write_tape_from_map round trip
-- ==============================================================================================

/-- C3: for every key not yet present and every list of values, the key cannot be
fetched yet (`write_tape_from_map` fails with `AdviceKeyNotFound`);
`insert_into_map` succeeds, a subsequent `write_tape_from_map` succeeds, and the
following `read_tape` calls return the values in their original order, the first
value first. -/
theorem insert_write_tape_round_trip (ap : AdviceProvider) (key : Word) (vs : List Felt)
    (h : mapGet ap.values key = none) :
    (write_tape_from_map ap key).1 = .error (.AdviceKeyNotFound key) ∧
    (insert_into_map ap key vs).1 = .ok () ∧
    (write_tape_from_map (insert_into_map ap key vs).2 key).1 = .ok () ∧
    (read_many vs.length (write_tape_from_map (insert_into_map ap key vs).2 key).2).1
      = .ok vs := by
  have hfst : (mapInsert ap.values key vs).1 = none := by
    rw [mapInsert_fst]; exact h
  have hins : insert_into_map ap key vs
      = (.ok (), { ap with values := (mapInsert ap.values key vs).2 }) := by
    simp [insert_into_map, hfst]
  have hget2 : mapGet ({ ap with values := (mapInsert ap.values key vs).2 }).values key
      = some vs := mapGet_mapInsert_self ap.values key vs
  have hwrite : write_tape_from_map ({ ap with values := (mapInsert ap.values key vs).2 }) key
      = (.ok (), { ap with values := (mapInsert ap.values key vs).2,
                           tape := vs ++ ap.tape }) := by
    simp only [write_tape_from_map, hget2]
    rw [foldl_cons_eq]
    simp
  refine ⟨by simp [write_tape_from_map, h], by simp [hins], by simp [hins, hwrite], ?_⟩
  rw [hins]
  simp only [hwrite]
  rw [read_many_of_tape_append vs _ ap.tape rfl]

/-- Witness for C3 at an empty provider and the value list `[5, 6]`. -/
theorem insert_write_tape_round_trip_witness :
    mapGet (AdviceProvider.mk 0 [] [] []).values (0, 0, 0, 0) = none ∧
    (read_many 2 (write_tape_from_map
        (insert_into_map ⟨0, [], [], []⟩ (0, 0, 0, 0) [5, 6]).2 (0, 0, 0, 0)).2).1
      = .ok [5, 6] :=
  ⟨by decide,
    (insert_write_tape_round_trip ⟨0, [], [], []⟩ (0, 0, 0, 0) [5, 6] (by decide)).2.2.2⟩

-- ==============================================================================================
-- CLAIM C7: get_mem_addr_range
-- ==============================================================================================

/-- C7: `get_mem_addr_range` reads the two addresses from the stack without
modifying it (the stack is only read); it fails with the out-of-bounds error
whenever either address is at least 2^32 (the start address is checked first),
fails with the invalid-range error whenever both are below 2^32 and the start
address exceeds the end address, and succeeds with an empty range whenever the
two addresses are equal and below 2^32. -/
theorem get_mem_addr_range_spec (stack : Nat → Felt) (start_idx end_idx : Nat) :
    (2 ^ 32 ≤ (stack start_idx).val →
      get_mem_addr_range stack start_idx end_idx
        = .error (.MemoryAddressOutOfBounds (stack start_idx).val)) ∧
    ((stack start_idx).val < 2 ^ 32 → 2 ^ 32 ≤ (stack end_idx).val →
      get_mem_addr_range stack start_idx end_idx
        = .error (.MemoryAddressOutOfBounds (stack end_idx).val)) ∧
    ((stack start_idx).val < 2 ^ 32 → (stack end_idx).val < 2 ^ 32 →
      (stack end_idx).val < (stack start_idx).val →
      get_mem_addr_range stack start_idx end_idx
        = .error (.InvalidMemoryRange (stack start_idx).val (stack end_idx).val)) ∧
    ((stack start_idx).val < 2 ^ 32 → (stack start_idx).val = (stack end_idx).val →
      get_mem_addr_range stack start_idx end_idx
        = .ok ((stack start_idx).val, (stack end_idx).val)) := by
  refine ⟨?_, ?_, ?_, ?_⟩
  · intro h1
    rw [get_mem_addr_range, if_pos (by omega)]
  · intro h1 h2
    rw [get_mem_addr_range, if_neg (by omega), if_pos (by omega)]
  · intro h1 h2 h3
    rw [get_mem_addr_range, if_neg (by omega), if_neg (by omega), if_pos h3]
  · intro h1 h2
    rw [get_mem_addr_range, if_neg (by omega), if_neg (by omega), if_neg (by omega)]

/-- Witness for C7: start 2^32 is out of bounds; the pair (10, 5) is an invalid
range; equal addresses 10 = 10 give the empty range. -/
theorem get_mem_addr_range_spec_witness :
    (2 ^ 32 ≤ ((((2 : Nat) ^ 32 : Nat) : Felt)).val ∧
      get_mem_addr_range
          (fun i => if i = 0 then (((2 : Nat) ^ 32 : Nat) : Felt)
            else if i = 1 then ((10 : Nat) : Felt) else ((5 : Nat) : Felt)) 0 2
        = .error (.MemoryAddressOutOfBounds (((((2 : Nat) ^ 32 : Nat) : Felt)).val))) ∧
    get_mem_addr_range
        (fun i => if i = 0 then (((2 : Nat) ^ 32 : Nat) : Felt)
          else if i = 1 then ((10 : Nat) : Felt) else ((5 : Nat) : Felt)) 1 2
      = .error (.InvalidMemoryRange ((10 : Nat) : Felt).val ((5 : Nat) : Felt).val) ∧
    get_mem_addr_range
        (fun i => if i = 0 then (((2 : Nat) ^ 32 : Nat) : Felt)
          else if i = 1 then ((10 : Nat) : Felt) else ((5 : Nat) : Felt)) 1 1
      = .ok (((10 : Nat) : Felt).val, ((10 : Nat) : Felt).val) := by
  refine ⟨⟨by decide, ?_⟩, ?_, ?_⟩
  · exact (get_mem_addr_range_spec _ 0 2).1 (by decide)
  · exact (get_mem_addr_range_spec _ 1 2).2.2.1 (by decide) (by decide) (by decide)
  · exact (get_mem_addr_range_spec _ 1 1).2.2.2 (by decide) (by decide)

-- ==============================================================================================
-- CLAIM C5: overflow-table request and response factors
-- ==============================================================================================

/-- C5: at row `i`, the request factor is the randomized encoding of the removed
overflow row exactly when the row is a left shift with non-empty overflow table
and is one otherwise; the response factor is the randomized encoding of the
added row (current clock, stack element 15, current parent overflow address)
exactly on a right shift and is one otherwise — rows doing neither contribute a
neutral factor of one on both sides. -/
theorem overflow_factor_dispatch (mt : MainTrace) (alphas : Nat → Felt) (i : Nat) :
    (mt.is_left_shift i = true → mt.is_non_empty_overflow i = true →
      get_requests_at mt alphas i =
        OverflowTableRow.to_value
          ⟨mt.parent_overflow_address i, mt.stack_element 15 (i + 1),
            mt.parent_overflow_address (i + 1)⟩ alphas) ∧
    (¬(mt.is_left_shift i = true ∧ mt.is_non_empty_overflow i = true) →
      get_requests_at mt alphas i = 1) ∧
    (mt.is_right_shift i = true →
      get_responses_at mt alphas i =
        OverflowTableRow.to_value
          ⟨mt.clk i, mt.stack_element 15 i, mt.parent_overflow_address i⟩ alphas) ∧
    (mt.is_right_shift i = false → get_responses_at mt alphas i = 1) := by
  refine ⟨?_, ?_, ?_, ?_⟩
  · intro h1 h2
    simp [get_requests_at, h1, h2]
  · intro h
    cases h1 : mt.is_left_shift i
    · simp [get_requests_at, h1]
    · cases h2 : mt.is_non_empty_overflow i
      · simp [get_requests_at, h1, h2]
      · exact absurd ⟨h1, h2⟩ h
  · intro h1
    simp [get_responses_at, h1]
  · intro h1
    simp [get_responses_at, h1]

/-- Witness for C5 on a concrete trace: row 1 left-shifts with a non-empty
table, row 0 right-shifts, and row 2 does neither. -/
theorem overflow_factor_dispatch_witness :
    get_requests_at
        ⟨fun i => (i : Felt), fun k i => ((k + i : Nat) : Felt),
          fun i => ((100 + i : Nat) : Felt), fun i => i == 1, fun i => i == 1,
          fun i => i == 0⟩ (fun n => ((n + 2 : Nat) : Felt)) 1
      = OverflowTableRow.to_value
          ⟨((101 : Nat) : Felt), ((17 : Nat) : Felt), ((102 : Nat) : Felt)⟩
          (fun n => ((n + 2 : Nat) : Felt)) ∧
    get_requests_at
        ⟨fun i => (i : Felt), fun k i => ((k + i : Nat) : Felt),
          fun i => ((100 + i : Nat) : Felt), fun i => i == 1, fun i => i == 1,
          fun i => i == 0⟩ (fun n => ((n + 2 : Nat) : Felt)) 2 = 1 ∧
    get_responses_at
        ⟨fun i => (i : Felt), fun k i => ((k + i : Nat) : Felt),
          fun i => ((100 + i : Nat) : Felt), fun i => i == 1, fun i => i == 1,
          fun i => i == 0⟩ (fun n => ((n + 2 : Nat) : Felt)) 0
      = OverflowTableRow.to_value
          ⟨((0 : Nat) : Felt), ((15 : Nat) : Felt), ((100 : Nat) : Felt)⟩
          (fun n => ((n + 2 : Nat) : Felt)) ∧
    get_responses_at
        ⟨fun i => (i : Felt), fun k i => ((k + i : Nat) : Felt),
          fun i => ((100 + i : Nat) : Felt), fun i => i == 1, fun i => i == 1,
          fun i => i == 0⟩ (fun n => ((n + 2 : Nat) : Felt)) 2 = 1 := by
  refine ⟨?_, ?_, ?_, ?_⟩
  · exact (overflow_factor_dispatch _ _ 1).1 rfl rfl
  · exact (overflow_factor_dispatch _ _ 2).2.1 (by simp)
  · have h := (overflow_factor_dispatch
        ⟨fun i => (i : Felt), fun k i => ((k + i : Nat) : Felt),
          fun i => ((100 + i : Nat) : Felt), fun i => i == 1, fun i => i == 1,
          fun i => i == 0⟩ (fun n => ((n + 2 : Nat) : Felt)) 0).2.2.1 rfl
    simpa using h
  · exact (overflow_factor_dispatch _ _ 2).2.2.2 rfl

-- ==============================================================================================
-- CLAIM C6: call/return overflow discipline
-- ==============================================================================================

/-- C6: returning from a call whose body leaves the overflow table of its own
invocation non-empty (callee depth above 16) terminates the run with
`InvalidStackDepthOnReturn` carrying that depth; when the body returns cleanly
the caller resumes at exactly its old depth, so a call frame never leaks
overflow rows to its caller. -/
theorem call_return_discipline :
    (∀ (body rest : List Instr) (d dEnd : Nat),
      execProgram body 16 = .ok dEnd → 16 < dEnd →
      execProgram (.call body :: rest) d = .error (.InvalidStackDepthOnReturn dEnd)) ∧
    (∀ (body rest : List Instr) (d : Nat),
      execProgram body 16 = .ok 16 →
      execProgram (.call body :: rest) d = execProgram rest d) := by
  constructor
  · intro body rest d dEnd hBody hGt
    have hne : dEnd ≠ 16 := by omega
    simp [execProgram, hBody, hne]
  · intro body rest d hBody
    simp [execProgram, hBody]

/-- Witness for C6: the body `push.1` (the failing program of the integration
test) ends its frame at depth 17, so the call fails with
`InvalidStackDepthOnReturn 17`; a balanced body returns cleanly. -/
theorem call_return_discipline_witness :
    execProgram [Instr.call [Instr.push 1]] 16
      = .error (.InvalidStackDepthOnReturn 17) ∧
    execProgram [Instr.call [Instr.push 1, Instr.drop]] 16 = .ok 16 := by
  constructor
  · have h : execProgram [Instr.push 1] 16 = .ok 17 := by simp [execProgram]
    exact call_return_discipline.1 [Instr.push 1] [] 16 17 h (by decide)
  · have h : execProgram [Instr.push 1, Instr.drop] 16 = .ok 16 := by simp [execProgram]
    have h2 := call_return_discipline.2 [Instr.push 1, Instr.drop] [] 16 h
    rw [h2]
    simp [execProgram]

-- ==============================================================================================
-- CLAIM C4: update_merkle_leaf, copy vs in-place
-- ==============================================================================================

/-- Counterexample for C4 as stated: updating a leaf in place (`copy = false`)
with a new leaf equal to the old one leaves the root unchanged, so the set is
re-inserted under the very same root — the call succeeds, and afterwards the
original root is still known to the provider, not `AdviceSetNotFound`. -/
theorem update_merkle_leaf_in_place_same_root_cex :
    (update_merkle_leaf ⟨0, [], [], [((8, 2, 3, 4), ⟨1, [(0, 0, 0, 0), (1, 0, 0, 0)]⟩)]⟩
        (8, 2, 3, 4) 0 (0, 0, 0, 0) false).1 = .ok [(1, 0, 0, 0)] ∧
    mapGet (update_merkle_leaf ⟨0, [], [], [((8, 2, 3, 4), ⟨1, [(0, 0, 0, 0), (1, 0, 0, 0)]⟩)]⟩
        (8, 2, 3, 4) 0 (0, 0, 0, 0) false).2.sets (8, 2, 3, 4)
      = some ⟨1, [(0, 0, 0, 0), (1, 0, 0, 0)]⟩ :=
  ⟨by decide, by decide⟩

/-- C4 amended: for every stored advice set with a resolvable leaf path, the call
returns the path and stores the updated set under its new root in both modes;
with `copy = true` the original set stays queryable under the original root with
unchanged values, and with `copy = false` the original root is no longer known
afterwards PROVIDED the new root differs from the original root — when the
update leaves the root unchanged (for example, the new leaf equals the old one)
the set is re-inserted under that same root, which remains known.  (The
hypothesis `hcoll` is the collision-freeness of the digest: equal roots only
arise from the unchanged tree.) -/
theorem update_merkle_leaf_copy_vs_in_place (ap : AdviceProvider) (root : Word)
    (index : Felt) (leaf : Word) (t t2 : MerkleTree) (path : List Word)
    (hnd : (ap.sets.map Prod.fst).Nodup)
    (hget : mapGet ap.sets root = some t)
    (hpath : t.get_path t.depth index.val = .ok path)
    (hupd : t.update_leaf index.val leaf = .ok t2)
    (hcoll : t2.root = root → t2 = t) :
    ((update_merkle_leaf ap root index leaf true).1 = .ok path ∧
      mapGet (update_merkle_leaf ap root index leaf true).2.sets root = some t ∧
      mapGet (update_merkle_leaf ap root index leaf true).2.sets t2.root = some t2) ∧
    ((update_merkle_leaf ap root index leaf false).1 = .ok path ∧
      mapGet (update_merkle_leaf ap root index leaf false).2.sets t2.root = some t2 ∧
      (t2.root ≠ root →
        mapGet (update_merkle_leaf ap root index leaf false).2.sets root = none)) := by
  have htrue : update_merkle_leaf ap root index leaf true
      = (.ok path, { ap with sets := (mapInsert ap.sets t2.root t2).2 }) := by
    simp [update_merkle_leaf, hget, hpath, hupd]
  have hrem : (mapRemove ap.sets root).1 = some t := by
    rw [mapRemove_fst]; exact hget
  have hfalse : update_merkle_leaf ap root index leaf false
      = (.ok path,
          { ap with sets := (mapInsert (mapRemove ap.sets root).2 t2.root t2).2 }) := by
    simp [update_merkle_leaf, hrem, hpath, hupd]
  refine ⟨⟨by simp [htrue], ?_, ?_⟩, ⟨by simp [hfalse], ?_, ?_⟩⟩
  · rw [htrue]
    by_cases hr : t2.root = root
    · rw [← hr, mapGet_mapInsert_self]
      rw [hcoll hr]
    · show mapGet (mapInsert ap.sets t2.root t2).2 root = some t
      rw [mapGet_mapInsert_ne ap.sets t2.root root t2 (fun hh => hr hh.symm)]
      exact hget
  · rw [htrue]
    exact mapGet_mapInsert_self ap.sets t2.root t2
  · rw [hfalse]
    exact mapGet_mapInsert_self (mapRemove ap.sets root).2 t2.root t2
  · intro hr
    rw [hfalse]
    show mapGet (mapInsert (mapRemove ap.sets root).2 t2.root t2).2 root = none
    rw [mapGet_mapInsert_ne (mapRemove ap.sets root).2 t2.root root t2
      (fun hh => hr hh.symm)]
    exact mapGet_mapRemove_self ap.sets root hnd

/-- Witness for C4 at a depth-1 tree: the in-place update with a genuinely new
leaf stores the updated set under the new root and forgets the old root. -/
theorem update_merkle_leaf_copy_vs_in_place_witness :
    mapGet (update_merkle_leaf
        ⟨0, [], [], [((8, 2, 3, 4), ⟨1, [(0, 0, 0, 0), (1, 0, 0, 0)]⟩)]⟩
        (8, 2, 3, 4) 0 (2, 0, 0, 0) false).2.sets
      (MerkleTree.root ⟨1, [(2, 0, 0, 0), (1, 0, 0, 0)]⟩)
      = some ⟨1, [(2, 0, 0, 0), (1, 0, 0, 0)]⟩ ∧
    mapGet (update_merkle_leaf
        ⟨0, [], [], [((8, 2, 3, 4), ⟨1, [(0, 0, 0, 0), (1, 0, 0, 0)]⟩)]⟩
        (8, 2, 3, 4) 0 (2, 0, 0, 0) false).2.sets (8, 2, 3, 4) = none := by
  have h := update_merkle_leaf_copy_vs_in_place
    ⟨0, [], [], [((8, 2, 3, 4), ⟨1, [(0, 0, 0, 0), (1, 0, 0, 0)]⟩)]⟩
    (8, 2, 3, 4) 0 (2, 0, 0, 0)
    ⟨1, [(0, 0, 0, 0), (1, 0, 0, 0)]⟩ ⟨1, [(2, 0, 0, 0), (1, 0, 0, 0)]⟩ [(1, 0, 0, 0)]
    (by decide) (by decide) (by decide) (by decide)
    (fun hh => absurd hh (by decide))
  exact ⟨h.2.2.1, h.2.2.2 (by decide)⟩

-- ==============================================================================================
-- CLAIM C2: hash-round constraints at cycle row 3
-- ==============================================================================================

/-- The mutation harness of the hash-round scenario: replace state element `j`
of the next row with `v`, leaving everything else in the frame unchanged. -/
def mutate_next_state (frame : EvaluationFrame) (j : Fin STATE_WIDTH) (v : Felt) :
    EvaluationFrame :=
  { frame with next := { frame.next with state := Function.update frame.next.state j v } }

/-- Degenerate hasher parameters used to instantiate witnesses: identity S-box,
identity linear layer, zero round constants. -/
def trivParams : HasherParams :=
  { sbox := fun x => x
    mds := fun i j => if i = j then 1 else 0
    ark1 := fun _ _ => 0
    ark2 := fun _ _ => 0 }

/-- The all-zero hasher state. -/
def zeroState : Fin STATE_WIDTH → Felt := fun _ => 0

/-- C2: for every hasher state `s`, the frame whose current row carries the
continuing-linear-hash selectors `[0, LINEAR_HASH 1, LINEAR_HASH 2]` at cycle
row 3 with node index zero, and whose next row carries the same selectors and
the state after one round application at position 3, makes
`enforce_constraints` with the cycle-row-3 periodic values return the all-zero
vector; and replacing any single next-row state element with a different value
makes the corresponding entry of the result nonzero. -/
theorem hash_round_constraints (p : HasherParams) (s : Fin STATE_WIDTH → Felt) :
    (∀ c, enforce_constraints p
        (get_test_hashing_frame p test_selectors test_selectors 3 s)
        (get_test_periodic_values p 3) 1 c = 0) ∧
    (∀ (j : Fin STATE_WIDTH) (v : Felt), v ≠ apply_round p 3 s j →
      enforce_constraints p
        (mutate_next_state (get_test_hashing_frame p test_selectors test_selectors 3 s) j v)
        (get_test_periodic_values p 3) 1
        (Fin.castLE (by decide) j) ≠ 0) := by
  have hpv : get_test_periodic_values p 3
      = ⟨0, 0, 0, p.ark1 3, p.ark2 3⟩ := rfl
  constructor
  · intro c
    rw [hpv]
    simp only [enforce_constraints, get_test_hashing_frame]
    split
    · simp [apply_round]
    · split
      · simp
      · simp
  · intro j v hv
    rw [hpv]
    simp only [enforce_constraints, mutate_next_state, get_test_hashing_frame]
    have hlt : ((Fin.castLE (by decide : STATE_WIDTH ≤ NUM_CONSTRAINTS) j : Fin NUM_CONSTRAINTS) : Nat)
        < 12 := j.isLt
    rw [dif_pos hlt]
    have hfin : (⟨((Fin.castLE (by decide : STATE_WIDTH ≤ NUM_CONSTRAINTS) j
        : Fin NUM_CONSTRAINTS) : Nat), hlt⟩ : Fin STATE_WIDTH) = j := rfl
    rw [hfin]
    simp only [Function.update_same]
    simp only [sub_zero, mul_one, one_mul]
    rw [sub_ne_zero]
    exact fun hh => hv (by simpa [apply_round] using hh)

/-- Witness for C2 with the degenerate parameters and the zero state: mutating
next-row state element 0 to 1 makes its constraint entry nonzero. -/
theorem hash_round_constraints_witness :
    ((1 : Felt) ≠ apply_round trivParams 3 zeroState ⟨0, by decide⟩) ∧
    enforce_constraints trivParams
        (mutate_next_state
          (get_test_hashing_frame trivParams test_selectors test_selectors 3 zeroState)
          ⟨0, by decide⟩ 1)
        (get_test_periodic_values trivParams 3) 1
        (Fin.castLE (show STATE_WIDTH ≤ NUM_CONSTRAINTS by decide) ⟨0, by decide⟩) ≠ 0 :=
  ⟨by decide, (hash_round_constraints trivParams zeroState).2 ⟨0, by decide⟩ 1 (by decide)⟩
